import Mathlib

/-!
Verification of the Kkartik14/video8 repository: a web application that turns a
natural-language prompt into an animated video.  The frontend (Next.js) is
present in the sources and is embedded directly; the backend (FastAPI server,
LLM handlers, scene generator) is absent from the sources — only its
documentation, callers and tests remain — so those components are modelled
from the specification, as marked on each definition.

Strings are modelled as `List Char`.
-/

namespace Video8

/-- The JavaScript whitespace characters relevant to `String.prototype.trim`
(the ASCII subset: space, tab, line feed, carriage return, vertical tab,
form feed). -/
def jsWhitespace (c : Char) : Bool :=
  c = ' ' || c = '\t' || c = '\n' || c = '\r' || c = '\x0b' || c = '\x0c'

/-- JavaScript `s.trim()`: removes leading and trailing whitespace. -/
def jsTrim (s : List Char) : List Char :=
  ((s.dropWhile jsWhitespace).reverse.dropWhile jsWhitespace).reverse

/-- The default backend base URL from `frontend/utils/api.js`
(`process.env.NEXT_PUBLIC_API_URL || 'http://localhost:8002'`); the same
default appears in `VideoResult` (src/unnamed/part_006). -/
def API_URL : List Char := "http://localhost:8002".data

/-- JavaScript `p.startsWith('http')`. -/
def startsWithHttp (p : List Char) : Bool :=
  "http".data.isPrefixOf p

/-- JavaScript `p.replace(/^\//, '')` from `api.js` and `VideoResult`:
strips exactly one leading slash when one is present. -/
def stripOneLeadingSlash : List Char → List Char
  | '/' :: rest => rest
  | p => p

/-- From `api.js` `getVideoData`: the URL the video blob is fetched from,
`videoPath.startsWith('http') ? videoPath : API_URL + '/' + videoPath.replace(/^\//, '')`. -/
def getVideoDataUrl (apiUrl p : List Char) : List Char :=
  if startsWithHttp p then p else apiUrl ++ '/' :: stripOneLeadingSlash p

/-- From `api.js` `getScriptData`: the URL the script text is fetched from;
textually the same normalization as `getVideoData`. -/
def getScriptDataUrl (apiUrl p : List Char) : List Char :=
  if startsWithHttp p then p else apiUrl ++ '/' :: stripOneLeadingSlash p

/-- From `VideoResult` (src/unnamed/part_006): `fullVideoPath`, the `src` of
the rendered `<video>` element. -/
def fullVideoPath (apiUrl p : List Char) : List Char :=
  if startsWithHttp p then p else apiUrl ++ '/' :: stripOneLeadingSlash p

/-- From `VideoResult` (src/unnamed/part_006): `fullScriptPath` for a
non-null `scriptPath` (the optional-chaining case with a null script path is
never rendered). -/
def fullScriptPath (apiUrl p : List Char) : List Char :=
  if startsWithHttp p then p else apiUrl ++ '/' :: stripOneLeadingSlash p

/-- The data passed by `PromptForm` to its `onSubmit` callback. -/
structure SubmitData where
  prompt : List Char
  model : List Char
deriving DecidableEq, Repr

/-- The component state of `PromptForm` (`useState` hooks `prompt`, `model`). -/
structure PromptFormState where
  prompt : List Char
  model : List Char
deriving DecidableEq, Repr

/-- From `PromptForm` `handleSubmit` (src/unnamed/part_004; the
`frontend/components/PromptForm.js` variant guards identically and merely
passes an extra `use_modular` flag): `e.preventDefault()` always runs, and
`onSubmit({ prompt, model })` is invoked only when `prompt.trim()` is truthy,
i.e. a non-empty string.  The handler never modifies the component state.
The result pairs the (unchanged) state with the optional submitted data. -/
def promptFormHandleSubmit (st : PromptFormState) : PromptFormState × Option SubmitData :=
  if jsTrim st.prompt ≠ [] then (st, some ⟨st.prompt, st.model⟩) else (st, none)

/-- The JSON body posted by `api.js` `generateVideo`: `{ prompt, model, use_modular }`. -/
structure GenerateRequest where
  prompt : List Char
  model : List Char
  use_modular : Bool
deriving DecidableEq, Repr

/-- The JSON response the frontend consumes in `index.js` `handleSubmit`:
`result.video_path`, `result.script_path`, `result.narration_script`. -/
structure GenerateResponse where
  video_path : List Char
  script_path : List Char
  narration_script : List Char
deriving DecidableEq, Repr

/-- From `api.js` `generateVideo`: the POST request URL, a template literal
over the backend base URL. -/
def generateVideoUrl (apiUrl : List Char) : List Char :=
  apiUrl ++ "/generate".data

/-- From `api.js` `generateVideo`: the request body sent with the POST. -/
def generateVideoBody (prompt model : List Char) (use_modular : Bool) : GenerateRequest :=
  ⟨prompt, model, use_modular⟩

/-- The component state of the `Home` page (`index.js`): the five `useState`
hooks `isLoading`, `videoPath`, `scriptPath`, `narrationScript`, `error`. -/
structure HomeState where
  isLoading : Bool
  videoPath : Option (List Char)
  scriptPath : Option (List Char)
  narrationScript : Option (List Char)
  error : Option (List Char)
deriving DecidableEq, Repr

/-- From `index.js` `handleSubmit`: the two updates performed before the
awaited call, `setIsLoading(true)` and `setError(null)`. -/
def homeSubmitStart (st : HomeState) : HomeState :=
  { st with isLoading := true, error := none }

/-- From `index.js` `handleSubmit` catch branch: the message stored by
`setError` — the connection hint when the stringified error mentions
`ERR_CONNECTION_REFUSED`, otherwise `err.toString()` itself. -/
def homeErrorMessage (apiUrl err : List Char) : List Char :=
  if "ERR_CONNECTION_REFUSED".data <:+: err then
    "Could not connect to the backend server. Please make sure it\x27s running at ".data ++ apiUrl
  else err

/-- From `index.js` `handleSubmit`: the try / catch / finally body once the
`generateVideo` promise has resolved (`Except.ok`) or rejected
(`Except.error`); the finally clause runs `setIsLoading(false)` in both
cases. -/
def homeSubmitFinish (apiUrl : List Char) (st : HomeState)
    (outcome : Except (List Char) GenerateResponse) : HomeState :=
  match outcome with
  | Except.ok r =>
      { st with videoPath := some r.video_path, scriptPath := some r.script_path,
                narrationScript := some r.narration_script, isLoading := false }
  | Except.error e =>
      { st with error := some (homeErrorMessage apiUrl e), isLoading := false }

/-- From `index.js`: the complete `handleSubmit` as a state transformer,
parametrised by the outcome of the `generateVideo` call. -/
def homeHandleSubmit (apiUrl : List Char) (st : HomeState)
    (outcome : Except (List Char) GenerateResponse) : HomeState :=
  homeSubmitFinish apiUrl (homeSubmitStart st) outcome

/-- JavaScript `s.split('/')`: splits a string at every slash; always returns
at least one (possibly empty) piece. -/
def splitOnSlash : List Char → List (List Char)
  | [] => [[]]
  | a :: rest =>
      let r := splitOnSlash rest
      if a = '/' then [] :: r
      else (a :: r.headD []) :: r.tail

/-- JavaScript `s.split('/').pop()`: the last path component. -/
def lastPathComponent (s : List Char) : List Char :=
  (splitOnSlash s).getLastD []

/-- A browser download triggered through a synthetic anchor element:
its `download` filename and the data it carries. -/
structure Download where
  filename : List Char
  contents : List Char
deriving DecidableEq, Repr

/-- From `VideoResult` (src/unnamed/part_006) `handleDownloadScript`: a blob
holding the fetched script text, downloaded as
`script_` + scriptPath.split('/').pop() + `.py`. -/
def handleDownloadScript (scriptPath script : List Char) : Download :=
  ⟨"script_".data ++ lastPathComponent scriptPath ++ ".py".data, script⟩

/-- From `VideoResult` (src/unnamed/part_006) `handleDownloadNarration`:
a blob holding the narration text, downloaded as
`narration_` + scriptPath.split('/').pop() + `.txt`. -/
def handleDownloadNarration (scriptPath narration : List Char) : Download :=
  ⟨"narration_".data ++ lastPathComponent scriptPath ++ ".txt".data, narration⟩

/-- What `VideoResult` renders for the video itself: the `<video>` element
and the `src` attribute it is given. -/
structure VideoResultView where
  videoSrc : List Char
deriving DecidableEq, Repr

/-- From `VideoResult` (src/unnamed/part_006): `if (!videoPath) return null`,
otherwise a `<video>` element whose `src` is `fullVideoPath`. -/
def videoResultView (apiUrl : List Char) : Option (List Char) → Option VideoResultView
  | none => none
  | some vp => some ⟨fullVideoPath apiUrl vp⟩

/-- Modelled from the spec: the shape of a line of LLM-generated
rendering-library (Manim) code, as seen by the textual heuristics of the
Code Post-Processor (`scene_generator.py`, absent from the sources): a
statement either creates a named on-screen text object, creates another
named mobject, removes / fades out a named object, defines the default
spatial-region constants, or is any other line of code. -/
inductive Stmt where
  | createText (name : List Char)
  | createObj (name : List Char)
  | removeObj (name : List Char)
  | defineRegions
  | other (text : List Char)
deriving DecidableEq, Repr

/-- The names of all objects (text objects included) a script creates. -/
def createdNames : List Stmt → List (List Char)
  | [] => []
  | Stmt.createText n :: rest => n :: createdNames rest
  | Stmt.createObj n :: rest => n :: createdNames rest
  | _ :: rest => createdNames rest

/-- The names of all objects a script removes or fades out. -/
def removedNames : List Stmt → List (List Char)
  | [] => []
  | Stmt.removeObj n :: rest => n :: removedNames rest
  | _ :: rest => removedNames rest

/-- The names of the on-screen text objects a script creates. -/
def createdTextNames : List Stmt → List (List Char)
  | [] => []
  | Stmt.createText n :: rest => n :: createdTextNames rest
  | _ :: rest => createdTextNames rest

/-- Whether the script already defines the spatial-region constants. -/
def definesRegions (s : List Stmt) : Bool :=
  decide (Stmt.defineRegions ∈ s)

/-- Modelled from the spec: the orphan detection of the Code Post-Processor —
the objects (on-screen text included) that are created but never removed. -/
def orphanNames (s : List Stmt) : List (List Char) :=
  (createdNames s).filter fun n => decide (n ∉ removedNames s)

/-- Modelled from the spec: the cleanup insertion of the Code Post-Processor —
appends a fade-out / cleanup call for every orphaned object. -/
def insertCleanup (s : List Stmt) : List Stmt :=
  s ++ (orphanNames s).map Stmt.removeObj

/-- Modelled from the spec: the spatial-layout insertion of the Code
Post-Processor — prepends the default spatial-region constants when the
script does not already define them. -/
def insertRegionConstants (s : List Stmt) : List Stmt :=
  if definesRegions s then s else Stmt.defineRegions :: s

/-- Modelled from the spec: the Code Post-Processor (`scene_generator.py`,
absent from the sources) — detects objects created but never removed,
inserts cleanup / fade-out calls for them, and inserts the default
spatial-region constants if absent, before the code is handed to the
renderer. -/
def processCode (s : List Stmt) : List Stmt :=
  insertRegionConstants (insertCleanup s)

/-- Modelled from the spec: an observable side effect of the backend
pipeline — a remote LLM text-completion call, a remote LLM call returning
rendering-library code, a write of a code file to disk, or shelling out to
the external rendering engine as an opaque external process. -/
inductive Effect where
  | llmTextCall (model input output : List Char)
  | llmCodeCall (model input : List Char) (output : List Stmt)
  | writeFile (path : List Char) (contents : List Stmt)
  | execRenderer (scriptPath outputPath : List Char)
deriving DecidableEq, Repr

/-- Whether an effect invokes the external rendering engine. -/
def isRendererCall : Effect → Bool
  | Effect.execRenderer _ _ => true
  | _ => false

/-- Modelled from the spec: the instruction text the Prompt Enhancer sends
with the original user prompt to the LLM completion API
(`llm_handler.py` / `groq_handler.py`, absent from the sources). -/
def enhancementInstructions : List Char :=
  "Expand the following short prompt into a detailed, comprehensive instruction for an educational animation: ".data

/-- Modelled from the spec: the Prompt Enhancer — expands a short user
prompt into a detailed instruction using an LLM completion call on the
selected model. -/
def enhancePrompt (llmText : List Char → List Char → List Char)
    (model prompt : List Char) : List Char :=
  llmText model (enhancementInstructions ++ prompt)

/-- The static style-guideline text (`animation_patterns.txt`,
src/unnamed/part_001); abbreviated here to its heading line — the claims
depend only on the text being a fixed constant. -/
def styleGuidelines : List Char :=
  "### Manim Animation Best Practices ".data

/-- Modelled from the spec: the Code Generator (LLM adapter) — sends the
enhanced prompt together with the static style-guideline text to the
selected LLM and receives back rendering-library source code. -/
def generateCode (llmCode : List Char → List Char → List Stmt)
    (model enhanced : List Char) : List Stmt :=
  llmCode model (styleGuidelines ++ enhanced)

/-- Modelled from the spec: the instruction text used to obtain the
narration script from the enhanced prompt. -/
def narrationInstructions : List Char :=
  "Write a narration script for the following animation description: ".data

/-- Modelled from the spec: the server-side path of the generated video file
(the backend serves files under `outputs/`). -/
def videoFilePath (jobId : List Char) : List Char :=
  "outputs/videos/".data ++ jobId ++ ".mp4".data

/-- Modelled from the spec: the server-side path of the generated script file. -/
def scriptFilePath (jobId : List Char) : List Char :=
  "outputs/scripts/".data ++ jobId ++ ".py".data

/-- Modelled from the spec: the Renderer Invoker (`main.py` rendering step,
absent from the sources) — writes the processed code to disk and then shells
out to the external rendering engine, which produces the video file; these
two effects are the only way it touches the renderer. -/
def renderVideo (scriptPath : List Char) (code : List Stmt)
    (outputPath : List Char) : List Effect :=
  [Effect.writeFile scriptPath code, Effect.execRenderer scriptPath outputPath]

/-- Modelled from the spec: the API Server handler for POST `/generate`
(`main.py`, absent from the sources) — orchestrates prompt enhancement, code
generation, post-processing and rendering, and returns the file paths of the
resulting video and source script together with the narration script.  The
second component is the trace of external effects the handler performs. -/
def apiServerGenerate (llmText : List Char → List Char → List Char)
    (llmCode : List Char → List Char → List Stmt)
    (jobId : List Char) (req : GenerateRequest) : GenerateResponse × List Effect :=
  let enhanced := enhancePrompt llmText req.model req.prompt
  let code := generateCode llmCode req.model enhanced
  let processed := processCode code
  let narration := llmText req.model (narrationInstructions ++ enhanced)
  let sp := scriptFilePath jobId
  let vp := videoFilePath jobId
  (⟨vp, sp, narration⟩,
    Effect.llmTextCall req.model (enhancementInstructions ++ req.prompt) enhanced
    :: Effect.llmTextCall req.model (narrationInstructions ++ enhanced) narration
    :: Effect.llmCodeCall req.model (styleGuidelines ++ enhanced) code
    :: renderVideo sp processed vp)

/-- The inputs of the LLM code-generation calls occurring in an effect
trace. -/
def codeCallInputs : List Effect → List (List Char)
  | [] => []
  | Effect.llmCodeCall _ input _ :: rest => input :: codeCallInputs rest
  | _ :: rest => codeCallInputs rest

/-- A small concrete generated script used as a witness input: a text object
`t` that is never removed, an object `a` that is created and removed, and no
region constants. -/
def demoScript : List Stmt :=
  [Stmt.createText "t".data, Stmt.createObj "a".data,
   Stmt.other "self.play(Write(t))".data, Stmt.removeObj "a".data]

/-! ## Helper lemmas -/

/-- Every element of `dropWhile p l` is an element of `l`. -/
theorem mem_of_mem_dropWhile {p : Char → Bool} {l : List Char} {c : Char}
    (h : c ∈ l.dropWhile p) : c ∈ l := by
  have hd := List.takeWhile_append_dropWhile p l
  rw [← hd]
  exact List.mem_append.mpr (Or.inr h)

/-- `jsTrim` yields the empty string exactly when the string is all
whitespace. -/
theorem jsTrim_eq_nil_iff (s : List Char) :
    jsTrim s = [] ↔ ∀ c ∈ s, jsWhitespace c = true := by
  unfold jsTrim
  rw [List.reverse_eq_nil_iff, List.dropWhile_eq_nil_iff]
  constructor
  · intro h c hc
    have hd := List.takeWhile_append_dropWhile jsWhitespace s
    rw [← hd, List.mem_append] at hc
    rcases hc with hc | hc
    · exact List.mem_takeWhile_imp hc
    · exact h c (List.mem_reverse.mpr hc)
  · intro h c hc
    exact h c (mem_of_mem_dropWhile (List.mem_reverse.mp hc))

/-! ## Claims -/

/-- C9: a `PromptForm` submission invokes the `onSubmit` callback (and hence
triggers a `/generate` request) if and only if the prompt contains at least
one non-whitespace character; the data submitted is exactly the current
prompt and model, and the component state is unchanged in every case. -/
theorem promptForm_submit_iff_nonwhitespace (st : PromptFormState) :
    ((promptFormHandleSubmit st).2 ≠ none ↔ ∃ c ∈ st.prompt, jsWhitespace c = false)
    ∧ (promptFormHandleSubmit st).1 = st
    ∧ (∀ d, (promptFormHandleSubmit st).2 = some d →
        d.prompt = st.prompt ∧ d.model = st.model) := by
  by_cases h : jsTrim st.prompt = []
  · have hall := (jsTrim_eq_nil_iff st.prompt).mp h
    have hif : promptFormHandleSubmit st = (st, none) := by
      unfold promptFormHandleSubmit
      rw [if_neg (by simp [h])]
    rw [hif]
    refine ⟨?_, rfl, ?_⟩
    · constructor
      · intro hx; exact absurd rfl hx
      · rintro ⟨c, hc, hw⟩
        rw [hall c hc] at hw
        cases hw
    · intro d hd
      simp at hd
  · have hif : promptFormHandleSubmit st = (st, some ⟨st.prompt, st.model⟩) := by
      unfold promptFormHandleSubmit
      rw [if_pos h]
    rw [hif]
    refine ⟨?_, rfl, ?_⟩
    · constructor
      · intro _
        rw [jsTrim_eq_nil_iff] at h
        push_neg at h
        rcases h with ⟨c, hc, hw⟩
        exact ⟨c, hc, by simpa using hw⟩
      · intro _; simp
    · intro d hd
      cases hd
      exact ⟨rfl, rfl⟩

/-- C9 witness: with the concrete prompt `"hi"` the callback fires with the
prompt and model, and the state is unchanged. -/
theorem promptForm_submit_witness :
    ((promptFormHandleSubmit ⟨"hi".data, "claude".data⟩).2 ≠ none ↔
      ∃ c ∈ "hi".data, jsWhitespace c = false)
    ∧ (promptFormHandleSubmit ⟨"hi".data, "claude".data⟩).1 = ⟨"hi".data, "claude".data⟩
    ∧ (∀ d, (promptFormHandleSubmit ⟨"hi".data, "claude".data⟩).2 = some d →
        d.prompt = "hi".data ∧ d.model = "claude".data) :=
  promptForm_submit_iff_nonwhitespace ⟨"hi".data, "claude".data⟩

/-- C10: every `Home` submission first resets `error` to null and sets
`isLoading` to true; when `generateVideo` rejects, `error` ends up non-null
while `videoPath`, `scriptPath` and `narrationScript` keep their previous
values; and in both the success and failure cases `isLoading` is false once
the handler completes. -/
theorem home_handleSubmit_state (apiUrl : List Char) (st : HomeState)
    (outcome : Except (List Char) GenerateResponse) :
    (homeSubmitStart st).error = none
    ∧ (homeSubmitStart st).isLoading = true
    ∧ (homeHandleSubmit apiUrl st outcome).isLoading = false
    ∧ (∀ e, outcome = Except.error e →
        (homeHandleSubmit apiUrl st outcome).error ≠ none
        ∧ (homeHandleSubmit apiUrl st outcome).videoPath = st.videoPath
        ∧ (homeHandleSubmit apiUrl st outcome).scriptPath = st.scriptPath
        ∧ (homeHandleSubmit apiUrl st outcome).narrationScript = st.narrationScript) := by
  refine ⟨rfl, rfl, ?_, ?_⟩
  · cases outcome <;> rfl
  · rintro e rfl
    refine ⟨?_, rfl, rfl, rfl⟩
    simp [homeHandleSubmit, homeSubmitFinish, homeSubmitStart]

/-- C10 witness: a concrete rejected submission over a concrete previous
state keeps the three stored paths, records a non-null error, and clears the
loading flag. -/
theorem home_handleSubmit_witness :
    (homeSubmitStart ⟨false, some "v".data, some "s".data, some "n".data, none⟩).error = none
    ∧ (homeSubmitStart ⟨false, some "v".data, some "s".data, some "n".data, none⟩).isLoading = true
    ∧ (homeHandleSubmit API_URL ⟨false, some "v".data, some "s".data, some "n".data, none⟩
        (Except.error "boom".data)).isLoading = false
    ∧ (∀ e, (Except.error "boom".data : Except (List Char) GenerateResponse) = Except.error e →
        (homeHandleSubmit API_URL ⟨false, some "v".data, some "s".data, some "n".data, none⟩
          (Except.error "boom".data)).error ≠ none
        ∧ (homeHandleSubmit API_URL ⟨false, some "v".data, some "s".data, some "n".data, none⟩
            (Except.error "boom".data)).videoPath = some "v".data
        ∧ (homeHandleSubmit API_URL ⟨false, some "v".data, some "s".data, some "n".data, none⟩
            (Except.error "boom".data)).scriptPath = some "s".data
        ∧ (homeHandleSubmit API_URL ⟨false, some "v".data, some "s".data, some "n".data, none⟩
            (Except.error "boom".data)).narrationScript = some "n".data) :=
  home_handleSubmit_state API_URL ⟨false, some "v".data, some "s".data, some "n".data, none⟩
    (Except.error "boom".data)

/-- C8 counterexample: the claim fails as stated — for the returned path
`"/http"`, the frontend builds `API_URL ++ "/http"`, while for the same path
without its leading slash, `"http"`, the `startsWith('http')` branch uses
the string unchanged, so the two request URLs differ. -/
theorem pathNormalization_counterexample :
    getVideoDataUrl API_URL ('/' :: "http".data) ≠ getVideoDataUrl API_URL "http".data := by
  decide

/-- C8 (amended): for every path `p` that has no leading slash and does not
start with `"http"`, the path `'/' :: p` and `p` yield the identical request
URL; and `getVideoData`, `getScriptData`, `fullVideoPath` and
`fullScriptPath` all implement the same normalization (if `p` starts with
`"http"` it is used unchanged, otherwise the URL is the backend base URL,
a single slash, and `p` with one leading slash stripped). -/
theorem pathNormalization_agree (apiUrl p : List Char)
    (h1 : stripOneLeadingSlash p = p)
    (h2 : startsWithHttp p = false) :
    getVideoDataUrl apiUrl ('/' :: p) = getVideoDataUrl apiUrl p
    ∧ (∀ q, getScriptDataUrl apiUrl q = getVideoDataUrl apiUrl q)
    ∧ (∀ q, fullVideoPath apiUrl q = getVideoDataUrl apiUrl q)
    ∧ (∀ q, fullScriptPath apiUrl q = getVideoDataUrl apiUrl q) := by
  refine ⟨?_, fun q => rfl, fun q => rfl, fun q => rfl⟩
  have h3 : startsWithHttp ('/' :: p) = false := rfl
  have h4 : stripOneLeadingSlash ('/' :: p) = p := rfl
  unfold getVideoDataUrl
  rw [h2, h3, h4, h1]
  simp

/-- C8 witness: the amended normalization at the concrete path
`"outputs/videos/v.mp4"`. -/
theorem pathNormalization_witness :
    getVideoDataUrl API_URL ('/' :: "outputs/videos/v.mp4".data)
      = getVideoDataUrl API_URL "outputs/videos/v.mp4".data
    ∧ (∀ q, getScriptDataUrl API_URL q = getVideoDataUrl API_URL q)
    ∧ (∀ q, fullVideoPath API_URL q = getVideoDataUrl API_URL q)
    ∧ (∀ q, fullScriptPath API_URL q = getVideoDataUrl API_URL q) :=
  pathNormalization_agree API_URL "outputs/videos/v.mp4".data (by decide) (by decide)

/-- `removedNames` distributes over append. -/
theorem removedNames_append (a b : List Stmt) :
    removedNames (a ++ b) = removedNames a ++ removedNames b := by
  induction a with
  | nil => rfl
  | cons s rest ih => cases s <;> simp [removedNames, ih]

/-- `createdNames` distributes over append. -/
theorem createdNames_append (a b : List Stmt) :
    createdNames (a ++ b) = createdNames a ++ createdNames b := by
  induction a with
  | nil => rfl
  | cons s rest ih => cases s <;> simp [createdNames, ih]

/-- A block of removal statements removes exactly the listed names. -/
theorem removedNames_map_removeObj (l : List (List Char)) :
    removedNames (l.map Stmt.removeObj) = l := by
  induction l with
  | nil => rfl
  | cons n rest ih => simp [removedNames, ih]

/-- A block of removal statements creates nothing. -/
theorem createdNames_map_removeObj (l : List (List Char)) :
    createdNames (l.map Stmt.removeObj) = [] := by
  induction l with
  | nil => rfl
  | cons n rest ih => simp [createdNames, ih]

/-- Prepending the region constants does not change the removal set. -/
theorem removedNames_insertRegionConstants (s : List Stmt) :
    removedNames (insertRegionConstants s) = removedNames s := by
  unfold insertRegionConstants
  split
  · rfl
  · rfl

/-- Prepending the region constants does not change the creation set. -/
theorem createdNames_insertRegionConstants (s : List Stmt) :
    createdNames (insertRegionConstants s) = createdNames s := by
  unfold insertRegionConstants
  split
  · rfl
  · rfl

/-- Every created on-screen text object is among the created objects. -/
theorem createdTextNames_subset (s : List Stmt) :
    ∀ n ∈ createdTextNames s, n ∈ createdNames s := by
  induction s with
  | nil => intro n hn; cases hn
  | cons st rest ih =>
      intro n hn
      cases st with
      | createText m =>
          rcases List.mem_cons.mp hn with h | h
          · rw [h]; exact List.mem_cons_self _ _
          · exact List.mem_cons_of_mem m (ih n h)
      | createObj m => exact List.mem_cons_of_mem m (ih n hn)
      | removeObj m => exact ih n hn
      | defineRegions => exact ih n hn
      | other t => exact ih n hn

/-- C2: for every generated script, the post-processor leaves a script in
which every created object — on-screen text objects included — has a
cleanup / removal, the default spatial-region constants are defined, the
inserted cleanup calls are exactly the detected orphans (objects created but
never removed), and no new objects are created by the processing. -/
theorem processCode_cleans_orphans (s : List Stmt) :
    (∀ n ∈ createdNames s, n ∈ removedNames (processCode s))
    ∧ (∀ n ∈ createdTextNames s, n ∈ removedNames (processCode s))
    ∧ definesRegions (processCode s) = true
    ∧ removedNames (processCode s) = removedNames s ++ orphanNames s
    ∧ createdNames (processCode s) = createdNames s := by
  have hrem : removedNames (processCode s) = removedNames s ++ orphanNames s := by
    unfold processCode insertCleanup
    rw [removedNames_insertRegionConstants, removedNames_append,
      removedNames_map_removeObj]
  have hcreate : createdNames (processCode s) = createdNames s := by
    unfold processCode insertCleanup
    rw [createdNames_insertRegionConstants, createdNames_append,
      createdNames_map_removeObj, List.append_nil]
  have htext := createdTextNames_subset s
  have hmain : ∀ n ∈ createdNames s, n ∈ removedNames (processCode s) := by
    intro n hn
    rw [hrem, List.mem_append]
    by_cases hr : n ∈ removedNames s
    · exact Or.inl hr
    · refine Or.inr ?_
      unfold orphanNames
      rw [List.mem_filter]
      exact ⟨hn, by simpa using hr⟩
  refine ⟨hmain, fun n hn => hmain n (htext n hn), ?_, hrem, hcreate⟩
  unfold processCode insertRegionConstants
  split
  · assumption
  · simp [definesRegions]

/-- C2 witness: a concrete script that creates a text object `t` (never
removed), creates and removes an object `a`, and defines no regions; the
processed script removes everything created and defines the regions. -/
theorem processCode_cleans_orphans_witness :
    (∀ n ∈ createdNames demoScript, n ∈ removedNames (processCode demoScript))
    ∧ (∀ n ∈ createdTextNames demoScript, n ∈ removedNames (processCode demoScript))
    ∧ definesRegions (processCode demoScript) = true
    ∧ removedNames (processCode demoScript)
        = removedNames demoScript ++ orphanNames demoScript
    ∧ createdNames (processCode demoScript) = createdNames demoScript :=
  processCode_cleans_orphans demoScript

/-- C1: the API is reached by a POST to the `/generate` endpoint whose body
carries the user prompt and model choice, and on success the server response
contains a file path for the resulting video and a file path for the
generated source script, which the `Home` submit handler then stores in the
component state (from where `VideoResult` uses them). -/
theorem generate_endpoint_roundtrip (apiUrl prompt model jobId : List Char)
    (st : HomeState)
    (llmText : List Char → List Char → List Char)
    (llmCode : List Char → List Char → List Stmt) :
    generateVideoUrl apiUrl = apiUrl ++ "/generate".data
    ∧ (generateVideoBody prompt model true).prompt = prompt
    ∧ (generateVideoBody prompt model true).model = model
    ∧ (apiServerGenerate llmText llmCode jobId (generateVideoBody prompt model true)).1.video_path
        = videoFilePath jobId
    ∧ (apiServerGenerate llmText llmCode jobId (generateVideoBody prompt model true)).1.script_path
        = scriptFilePath jobId
    ∧ (homeHandleSubmit apiUrl st
          (Except.ok (apiServerGenerate llmText llmCode jobId (generateVideoBody prompt model true)).1)).videoPath
        = some (videoFilePath jobId)
    ∧ (homeHandleSubmit apiUrl st
          (Except.ok (apiServerGenerate llmText llmCode jobId (generateVideoBody prompt model true)).1)).scriptPath
        = some (scriptFilePath jobId) := by
  exact ⟨rfl, rfl, rfl, rfl, rfl, rfl, rfl⟩

/-- C5: in the server pipeline, the prompt enhancement is an LLM completion
call on the enhancement instructions followed by the original prompt, that
call appears in the effect trace, and the subsequent code-generation call
consumes exactly the enhanced prompt (appended to the style guidelines); in
particular, whenever the enhancement changed the prompt, the code generator
does not receive the original prompt. -/
theorem promptEnhancer_feeds_codegen (jobId : List Char) (req : GenerateRequest)
    (llmText : List Char → List Char → List Char)
    (llmCode : List Char → List Char → List Stmt)
    (hchanged : enhancePrompt llmText req.model req.prompt ≠ req.prompt) :
    enhancePrompt llmText req.model req.prompt
        = llmText req.model (enhancementInstructions ++ req.prompt)
    ∧ Effect.llmTextCall req.model (enhancementInstructions ++ req.prompt)
          (enhancePrompt llmText req.model req.prompt)
        ∈ (apiServerGenerate llmText llmCode jobId req).2
    ∧ codeCallInputs (apiServerGenerate llmText llmCode jobId req).2
        = [styleGuidelines ++ enhancePrompt llmText req.model req.prompt]
    ∧ codeCallInputs (apiServerGenerate llmText llmCode jobId req).2
        ≠ [styleGuidelines ++ req.prompt] := by
  refine ⟨rfl, List.mem_cons_self _ _, rfl, ?_⟩
  intro h
  have h2 : styleGuidelines ++ enhancePrompt llmText req.model req.prompt
      = styleGuidelines ++ req.prompt := by
    simpa [codeCallInputs, apiServerGenerate] using h
  exact hchanged (List.append_cancel_left h2)

/-- C5 witness: a concrete enhancer that prepends a character changes the
prompt, the enhancement call is in the trace, and the code generator
receives the enhanced prompt (and not the original). -/
theorem promptEnhancer_witness :
    enhancePrompt (fun _ input => 'X' :: input) "claude".data "p".data
        = (fun (_ : List Char) (input : List Char) => 'X' :: input) "claude".data
            (enhancementInstructions ++ "p".data)
    ∧ Effect.llmTextCall "claude".data (enhancementInstructions ++ "p".data)
          (enhancePrompt (fun _ input => 'X' :: input) "claude".data "p".data)
        ∈ (apiServerGenerate (fun _ input => 'X' :: input) (fun _ _ => demoScript)
            "job1".data ⟨"p".data, "claude".data, true⟩).2
    ∧ codeCallInputs (apiServerGenerate (fun _ input => 'X' :: input) (fun _ _ => demoScript)
          "job1".data ⟨"p".data, "claude".data, true⟩).2
        = [styleGuidelines ++ enhancePrompt (fun _ input => 'X' :: input) "claude".data "p".data]
    ∧ codeCallInputs (apiServerGenerate (fun _ input => 'X' :: input) (fun _ _ => demoScript)
          "job1".data ⟨"p".data, "claude".data, true⟩).2
        ≠ [styleGuidelines ++ "p".data] :=
  promptEnhancer_feeds_codegen "job1".data ⟨"p".data, "claude".data, true⟩
    (fun _ input => 'X' :: input) (fun _ _ => demoScript) (by decide)

/-- C6: in the full effect trace of a `/generate` request, the external
rendering engine is invoked exactly once, as an opaque external process, and
that invocation is immediately preceded by the write of the processed
animation code to the script file on disk — the trace ends with the
renderer invoker's two effects and contains no other renderer invocation. -/
theorem renderer_invocation_shape (jobId : List Char) (req : GenerateRequest)
    (llmText : List Char → List Char → List Char)
    (llmCode : List Char → List Char → List Stmt) :
    (apiServerGenerate llmText llmCode jobId req).2.filter isRendererCall
        = [Effect.execRenderer (scriptFilePath jobId) (videoFilePath jobId)]
    ∧ (∃ pre, (apiServerGenerate llmText llmCode jobId req).2
        = pre ++ [Effect.writeFile (scriptFilePath jobId)
                    (processCode (generateCode llmCode req.model
                      (enhancePrompt llmText req.model req.prompt))),
                  Effect.execRenderer (scriptFilePath jobId) (videoFilePath jobId)])
    ∧ (∀ e ∈ (apiServerGenerate llmText llmCode jobId req).2,
        isRendererCall e = true →
          e = Effect.execRenderer (scriptFilePath jobId) (videoFilePath jobId)) := by
  refine ⟨rfl, ?_, ?_⟩
  · exact ⟨[Effect.llmTextCall req.model (enhancementInstructions ++ req.prompt)
        (enhancePrompt llmText req.model req.prompt),
      Effect.llmTextCall req.model
        (narrationInstructions ++ enhancePrompt llmText req.model req.prompt)
        (llmText req.model (narrationInstructions ++ enhancePrompt llmText req.model req.prompt)),
      Effect.llmCodeCall req.model
        (styleGuidelines ++ enhancePrompt llmText req.model req.prompt)
        (generateCode llmCode req.model (enhancePrompt llmText req.model req.prompt))], rfl⟩
  · intro e he hr
    simp only [apiServerGenerate, renderVideo, List.mem_cons, List.mem_singleton] at he
    rcases he with rfl | rfl | rfl | rfl | rfl | he
    · cases hr
    · cases hr
    · cases hr
    · cases hr
    · rfl
    · cases he

/-- C6 witness: the renderer-invocation shape at a concrete request. -/
theorem renderer_invocation_witness :
    (apiServerGenerate (fun _ input => input) (fun _ _ => demoScript)
        "job1".data ⟨"p".data, "claude".data, true⟩).2.filter isRendererCall
        = [Effect.execRenderer (scriptFilePath "job1".data) (videoFilePath "job1".data)]
    ∧ (∃ pre, (apiServerGenerate (fun _ input => input) (fun _ _ => demoScript)
          "job1".data ⟨"p".data, "claude".data, true⟩).2
        = pre ++ [Effect.writeFile (scriptFilePath "job1".data)
                    (processCode (generateCode (fun _ _ => demoScript) "claude".data
                      (enhancePrompt (fun _ input => input) "claude".data "p".data))),
                  Effect.execRenderer (scriptFilePath "job1".data) (videoFilePath "job1".data)])
    ∧ (∀ e ∈ (apiServerGenerate (fun _ input => input) (fun _ _ => demoScript)
          "job1".data ⟨"p".data, "claude".data, true⟩).2,
        isRendererCall e = true →
          e = Effect.execRenderer (scriptFilePath "job1".data) (videoFilePath "job1".data)) :=
  renderer_invocation_shape "job1".data ⟨"p".data, "claude".data, true⟩
    (fun _ input => input) (fun _ _ => demoScript)

/-- C7: the code generator sends one message to the selected LLM consisting
of the static style-guideline text followed by the enhanced prompt, that
call appears in the server's effect trace, and the call's result — the
rendering-library source code — is exactly the selected LLM's completion on
that message. -/
theorem codeGenerator_message (jobId : List Char) (req : GenerateRequest)
    (llmText : List Char → List Char → List Char)
    (llmCode : List Char → List Char → List Stmt) :
    Effect.llmCodeCall req.model
        (styleGuidelines ++ enhancePrompt llmText req.model req.prompt)
        (generateCode llmCode req.model (enhancePrompt llmText req.model req.prompt))
      ∈ (apiServerGenerate llmText llmCode jobId req).2
    ∧ generateCode llmCode req.model (enhancePrompt llmText req.model req.prompt)
        = llmCode req.model (styleGuidelines ++ enhancePrompt llmText req.model req.prompt) := by
  refine ⟨?_, rfl⟩
  simp [apiServerGenerate]

/-- C1 witness: the round trip at concrete inputs. -/
theorem generate_endpoint_witness :
    generateVideoUrl API_URL = API_URL ++ "/generate".data
    ∧ (generateVideoBody "p".data "claude".data true).prompt = "p".data
    ∧ (generateVideoBody "p".data "claude".data true).model = "claude".data
    ∧ (apiServerGenerate (fun _ input => input) (fun _ _ => demoScript) "job1".data
          (generateVideoBody "p".data "claude".data true)).1.video_path
        = videoFilePath "job1".data
    ∧ (apiServerGenerate (fun _ input => input) (fun _ _ => demoScript) "job1".data
          (generateVideoBody "p".data "claude".data true)).1.script_path
        = scriptFilePath "job1".data
    ∧ (homeHandleSubmit API_URL ⟨false, none, none, none, none⟩
          (Except.ok (apiServerGenerate (fun _ input => input) (fun _ _ => demoScript)
            "job1".data (generateVideoBody "p".data "claude".data true)).1)).videoPath
        = some (videoFilePath "job1".data)
    ∧ (homeHandleSubmit API_URL ⟨false, none, none, none, none⟩
          (Except.ok (apiServerGenerate (fun _ input => input) (fun _ _ => demoScript)
            "job1".data (generateVideoBody "p".data "claude".data true)).1)).scriptPath
        = some (scriptFilePath "job1".data) :=
  generate_endpoint_roundtrip API_URL "p".data "claude".data "job1".data
    ⟨false, none, none, none, none⟩ (fun _ input => input) (fun _ _ => demoScript)

/-- C7 witness: the code-generation call at concrete inputs. -/
theorem codeGenerator_message_witness :
    Effect.llmCodeCall "claude".data
        (styleGuidelines ++ enhancePrompt (fun _ input => input) "claude".data "p".data)
        (generateCode (fun _ _ => demoScript) "claude".data
          (enhancePrompt (fun _ input => input) "claude".data "p".data))
      ∈ (apiServerGenerate (fun _ input => input) (fun _ _ => demoScript)
          "job1".data ⟨"p".data, "claude".data, true⟩).2
    ∧ generateCode (fun _ _ => demoScript) "claude".data
          (enhancePrompt (fun _ input => input) "claude".data "p".data)
        = (fun (_ : List Char) (_ : List Char) => demoScript) "claude".data
            (styleGuidelines ++ enhancePrompt (fun _ input => input) "claude".data "p".data) :=
  codeGenerator_message "job1".data ⟨"p".data, "claude".data, true⟩
    (fun _ input => input) (fun _ _ => demoScript)

/-- C3: the single-page form calls the generate API when a prompt is
submitted, the returned video is displayed (and not before a video path
exists), and the user can download both the generated animation script and
the narration script — each download carries the respective text under a
filename derived from the script path. -/
theorem frontend_form_video_downloads
    (apiUrl prompt model vp sp script narration : List Char)
    (h : jsTrim prompt ≠ []) :
    (promptFormHandleSubmit ⟨prompt, model⟩).2 = some ⟨prompt, model⟩
    ∧ generateVideoUrl apiUrl = apiUrl ++ "/generate".data
    ∧ videoResultView apiUrl (some vp) = some ⟨fullVideoPath apiUrl vp⟩
    ∧ videoResultView apiUrl none = none
    ∧ handleDownloadScript sp script
        = ⟨"script_".data ++ lastPathComponent sp ++ ".py".data, script⟩
    ∧ handleDownloadNarration sp narration
        = ⟨"narration_".data ++ lastPathComponent sp ++ ".txt".data, narration⟩ := by
  refine ⟨?_, rfl, rfl, rfl, rfl, rfl⟩
  unfold promptFormHandleSubmit
  rw [if_pos h]

/-- C3 witness: the form / display / download behaviour at concrete values. -/
theorem frontend_form_witness :
    (promptFormHandleSubmit ⟨"p".data, "claude".data⟩).2 = some ⟨"p".data, "claude".data⟩
    ∧ generateVideoUrl API_URL = API_URL ++ "/generate".data
    ∧ videoResultView API_URL (some "outputs/videos/v.mp4".data)
        = some ⟨fullVideoPath API_URL "outputs/videos/v.mp4".data⟩
    ∧ videoResultView API_URL none = none
    ∧ handleDownloadScript "outputs/scripts/v.py".data "code".data
        = ⟨"script_".data ++ lastPathComponent "outputs/scripts/v.py".data ++ ".py".data,
           "code".data⟩
    ∧ handleDownloadNarration "outputs/scripts/v.py".data "story".data
        = ⟨"narration_".data ++ lastPathComponent "outputs/scripts/v.py".data ++ ".txt".data,
           "story".data⟩ :=
  frontend_form_video_downloads API_URL "p".data "claude".data
    "outputs/videos/v.mp4".data "outputs/scripts/v.py".data "code".data "story".data
    (by decide)

/-- C4: for a returned video path that is not already an absolute `http`
URL, the frontend derives a backend URL from it — the backend base URL, a
slash, and the path with one leading slash stripped — fetches the video from
exactly that URL (`getVideoData`), and displays it (`VideoResult` renders a
video element whose `src` is that same derived URL). -/
theorem video_served_to_browser (apiUrl p : List Char)
    (h : startsWithHttp p = false) :
    videoResultView apiUrl (some p) = some ⟨fullVideoPath apiUrl p⟩
    ∧ getVideoDataUrl apiUrl p = fullVideoPath apiUrl p
    ∧ fullVideoPath apiUrl p = apiUrl ++ '/' :: stripOneLeadingSlash p
    ∧ (∃ rest, fullVideoPath apiUrl p = apiUrl ++ rest) := by
  refine ⟨rfl, rfl, ?_, ⟨'/' :: stripOneLeadingSlash p, ?_⟩⟩ <;>
    simp [fullVideoPath, h]

/-- C4 witness: the served-video derivation at the concrete returned path
`"outputs/videos/v.mp4"`. -/
theorem video_served_witness :
    videoResultView API_URL (some "outputs/videos/v.mp4".data)
        = some ⟨fullVideoPath API_URL "outputs/videos/v.mp4".data⟩
    ∧ getVideoDataUrl API_URL "outputs/videos/v.mp4".data
        = fullVideoPath API_URL "outputs/videos/v.mp4".data
    ∧ fullVideoPath API_URL "outputs/videos/v.mp4".data
        = API_URL ++ '/' :: stripOneLeadingSlash "outputs/videos/v.mp4".data
    ∧ (∃ rest, fullVideoPath API_URL "outputs/videos/v.mp4".data = API_URL ++ rest) :=
  video_served_to_browser API_URL "outputs/videos/v.mp4".data (by decide)

end Video8
